import Mathlib

/-!
Verification development for the multi-tenant JWT issuance/verification
service (jwt-service) and its companion cookie-based identity flow.

The Go sources are shallowly embedded:
 - JSON claim values decoded by encoding/json are modelled by `JSONVal`
   (all JSON numbers decode to float64 in Go; claims carry unix-second
   timestamps, modelled as `Int`).
 - The compact JWT wire format is modelled symbolically by `TokenStr`:
   either a structurally malformed string or a `Token` carrying the header
   algorithm, the claim map and a signature blob.  HMAC signing is
   modelled under the standard symbolic (perfect-cryptography) assumption:
   `Sig.hmac alg claims key` is the unique MAC of the signing input under
   `key`, and two MACs are equal only when all components are.
 - Go errors are modelled by `GoError`; fmt.Errorf with the w verb becomes
   `GoError.wrapf`, which preserves the wrapped cause the way errors.Is
   does in Go.
 - Go time.Time is modelled by `GoTime`: an absolute unix instant plus a
   location used only for display.  time.Time.In changes only the
   location; Unix returns the instant.
 - The golang-jwt v5 parser used by the service (ParseUnverified, Parse
   with a keyfunc, and the default claims validator that checks exp and
   nbf when present) is modelled by `ParseUnverified`, `parseWithKeyfunc`
   and `validateClaims`, following the v5 library semantics.
-/

namespace JwtSpec

/-- JSON values as decoded by encoding/json into an untyped claim map.
Numbers decode to float64 in Go; here they are unix-second integers. -/
inductive JSONVal where
  | str (s : String)
  | num (n : Int)
  | boolean (b : Bool)
  | null
  deriving DecidableEq, Repr

/-- A decoded claim map (jwt.MapClaims), as an association list. -/
abbrev Claims := List (String × JSONVal)

/-- Lookup of a claim by key, mirroring Go map indexing on jwt.MapClaims. -/
def findClaim (cs : Claims) (k : String) : Option JSONVal :=
  match cs with
  | [] => none
  | (k2, v) :: rest => if k2 = k then some v else findClaim rest k

/-- The string value of a claim when present with string type, else the
empty string; mirrors the guarded type assertions used for accountId and
userId in VerifyToken. -/
def strClaimOrEmpty (cs : Claims) (k : String) : String :=
  match findClaim cs k with
  | some (.str s) => s
  | _ => ""

/-- Signing algorithms registered with golang-jwt v5.  `noAlg` is the
"none" algorithm; `unknown` is any alg string with no registered method. -/
inductive Alg where
  | HS256 | HS384 | HS512
  | RS256 | RS384 | RS512
  | ES256 | ES384 | ES512
  | PS256 | PS384 | PS512
  | EdDSA
  | noAlg
  | unknown (algName : String)
  deriving DecidableEq, Repr

/-- Whether GetSigningMethod resolves the header alg to a method. -/
def Alg.registered : Alg → Bool
  | .unknown _ => false
  | _ => true

/-- Whether the resolved method is an instance of jwt.SigningMethodHMAC,
the type assertion performed by the keyfunc in VerifyToken. -/
def Alg.isHMAC : Alg → Bool
  | .HS256 | .HS384 | .HS512 => true
  | _ => false

/-- Display name of the algorithm, as it appears in the header. -/
def Alg.algString : Alg → String
  | .HS256 => "HS256" | .HS384 => "HS384" | .HS512 => "HS512"
  | .RS256 => "RS256" | .RS384 => "RS384" | .RS512 => "RS512"
  | .ES256 => "ES256" | .ES384 => "ES384" | .ES512 => "ES512"
  | .PS256 => "PS256" | .PS384 => "PS384" | .PS512 => "PS512"
  | .EdDSA => "EdDSA"
  | .noAlg => "none"
  | .unknown s => s

/-- A token signature segment.  `hmac alg claims key` is the HMAC of the
signing input (header with `alg`, payload with `claims`) under `key`;
`blob` is any other byte string (attacker-chosen or from another key
family).  Constructor injectivity encodes the symbolic assumption that
HMACs under different keys or over different inputs never collide. -/
inductive Sig where
  | hmac (alg : Alg) (claims : Claims) (key : String)
  | blob (bytes : String)
  deriving DecidableEq, Repr

/-- A structurally well-formed compact JWT: header algorithm, decoded
claim map, and signature segment. -/
structure Token where
  alg : Alg
  claims : Claims
  sig : Sig
  deriving DecidableEq, Repr

/-- A token string on the wire: either not a valid compact JOSE structure
at all, or a structurally parseable token. -/
inductive TokenStr where
  | malformed (raw : String)
  | tok (t : Token)
  deriving DecidableEq, Repr

/-- Go error values produced by the service and by golang-jwt v5.
`wrapf` is fmt.Errorf with the w verb (wrapping preserved, as errors.Is
sees it); `simple` is fmt.Errorf without wrapping; `sqlErrNoRows` is
database/sql ErrNoRows; `storeFailure` is any other database error;
`joined` is errors.Join of the claim-validation errors. -/
inductive GoError where
  | tokenMalformed
  | algUnavailable
  | unexpectedSigningMethod (algName : String)
  | tokenSignatureInvalid
  | tokenExpired
  | tokenNotValidYet
  | invalidType (key : String)
  | joined (a b : GoError)
  | tokenInvalidClaims (cause : GoError)
  | tokenUnverifiable (cause : GoError)
  | sqlErrNoRows
  | storeFailure (msg : String)
  | wrapf (msg : String) (cause : GoError)
  | simple (msg : String)
  deriving DecidableEq, Repr

/-- Whether predicate `p` holds somewhere in the error chain reachable by
repeated unwrapping, the discrimination that errors.Is performs in Go. -/
def GoError.chainHas (p : GoError → Bool) : GoError → Bool
  | e@(.wrapf _ c) => p e || c.chainHas p
  | e@(.tokenUnverifiable c) => p e || c.chainHas p
  | e@(.tokenInvalidClaims c) => p e || c.chainHas p
  | e@(.joined a b) => p e || a.chainHas p || b.chainHas p
  | e => p e

/-- Recognizer for database/sql ErrNoRows. -/
def GoError.isNoRows : GoError → Bool
  | .sqlErrNoRows => true
  | _ => false

/-- Recognizer for a non-ErrNoRows store failure. -/
def GoError.isStoreFailure : GoError → Bool
  | .storeFailure _ => true
  | _ => false

/-- Recognizer for the two expiry errors the verifier can produce: the
library marker jwt.ErrTokenExpired and the manual check message. -/
def GoError.isExpiredKind : GoError → Bool
  | .tokenExpired => true
  | .simple m => m = "token expired"
  | _ => false

/-- Recognizer for the missing-expiration error produced by the manual
check in VerifyToken. -/
def GoError.isMissingExpiration : GoError → Bool
  | .simple m => m = "expiration not found in token"
  | _ => false

/-- Go time.Time: an absolute instant in unix seconds plus a location
used for display.  time.Time.In keeps the instant and changes only the
location; Unix returns the instant. -/
structure GoTime where
  unix : Int
  loc : String
  deriving DecidableEq, Repr

/-- Embeds time.Time.In applied to the process-wide IST location loaded
in the auth package init. -/
def toIST (t : GoTime) : GoTime :=
  { unix := t.unix, loc := "Asia/Kolkata" }

/-- time.Time.Add with a duration of `s` seconds. -/
def GoTime.addSeconds (t : GoTime) (s : Int) : GoTime :=
  { unix := t.unix + s, loc := t.loc }

/-- A row of the customers table (models.Customer, secret key included). -/
structure Customer where
  customerID : String
  accountID : String
  secretKey : String
  expirationMinutes : Int
  deriving DecidableEq, Repr

/-- The credential store: either a reachable database holding the
customers table, or a database failing with some driver error. -/
inductive DBState where
  | healthy (customers : List Customer)
  | failing (msg : String)
  deriving DecidableEq, Repr

/-- First row matching the customer id (customer_id is UNIQUE). -/
def findCustomer (cs : List Customer) (cid : String) : Option Customer :=
  match cs with
  | [] => none
  | c :: rest => if c.customerID = cid then some c else findCustomer rest cid

/-- Database.GetSecretKeyForCustomer: a single-row SELECT of secret_key.
QueryRow.Scan yields sql.ErrNoRows when no row matches and the driver
error when the store itself fails. -/
def GetSecretKeyForCustomer (db : DBState) (cid : String) : Except GoError String :=
  match db with
  | .failing m => .error (.storeFailure m)
  | .healthy cs =>
    match findCustomer cs cid with
    | some c => .ok c.secretKey
    | none => .error .sqlErrNoRows

/-- jwt.Parser.ParseUnverified: decodes the compact structure and resolves
the header alg to a registered method, without touching the signature. -/
def ParseUnverified (ts : TokenStr) : Except GoError Token :=
  match ts with
  | .malformed _ => .error .tokenMalformed
  | .tok t =>
    if t.alg.registered then .ok t
    else .error (.tokenUnverifiable .algUnavailable)

/-- MapClaims.parseNumericDate for the given key, as used by the v5
validator for exp and nbf: absent gives none, a float64 gives its value
with zero treated as absent, any other JSON type is an ErrInvalidType. -/
def parseNumericDate (cs : Claims) (k : String) : Except GoError (Option Int) :=
  match findClaim cs k with
  | none => .ok none
  | some (.num v) => if v = 0 then .ok none else .ok (some v)
  | some _ => .error (.invalidType k)

/-- The golang-jwt v5 default claims validator: exp must be strictly in
the future when present, nbf must not be in the future when present; iat
is not checked by default.  The collected errors are combined with
errors.Join; none means the claims are valid. -/
def validateClaims (now : Int) (cs : Claims) : Option GoError :=
  let expErr : Option GoError :=
    match parseNumericDate cs "exp" with
    | .error e => some e
    | .ok none => none
    | .ok (some e) => if now < e then none else some .tokenExpired
  let nbfErr : Option GoError :=
    match parseNumericDate cs "nbf" with
    | .error e => some e
    | .ok none => none
    | .ok (some n) => if n ≤ now then none else some .tokenNotValidYet
  match expErr, nbfErr with
  | none, none => none
  | some e, none => some e
  | none, some e => some e
  | some e1, some e2 => some (.joined e1 e2)

/-- jwt.Parse with the keyfunc from VerifyToken: structural parse, HMAC
method check inside the keyfunc, signature verification against the
returned secret, then default claims validation, in the v5 order. -/
def parseWithKeyfunc (now : Int) (ts : TokenStr) (secretKey : String) : Except GoError Token :=
  match ParseUnverified ts with
  | .error e => .error e
  | .ok t =>
    if ¬ t.alg.isHMAC then
      .error (.tokenUnverifiable (.unexpectedSigningMethod t.alg.algString))
    else if t.sig ≠ Sig.hmac t.alg t.claims secretKey then
      .error .tokenSignatureInvalid
    else
      match validateClaims now t.claims with
      | none => .ok t
      | some e => .error (.tokenInvalidClaims e)

/-- The verifier output (models.JWTPayload). -/
structure JWTPayload where
  CustomerID : String
  AccountID : String
  UserID : String
  Exp : Int
  deriving DecidableEq, Repr

/-- JWTService.VerifyToken: unverified parse to read customerId, key
resolution for that tenant, verified parse with the tenant key, then the
manual expiration check and payload construction. -/
def VerifyToken (db : DBState) (now : GoTime) (ts : TokenStr) : Except GoError JWTPayload :=
  match ParseUnverified ts with
  | .error e => .error (.wrapf "failed to parse token" e)
  | .ok t =>
    match findClaim t.claims "customerId" with
    | some (.str customerID) =>
      match GetSecretKeyForCustomer db customerID with
      | .error e =>
        .error (.wrapf ("failed to get secret key for customer " ++ customerID) e)
      | .ok secretKey =>
        match parseWithKeyfunc now.unix ts secretKey with
        | .error e => .error (.wrapf "token verification failed" e)
        | .ok t2 =>
          match findClaim t2.claims "exp" with
          | some (.num exp) =>
            if exp < now.unix then .error (.simple "token expired")
            else
              .ok { CustomerID := customerID
                    AccountID := strClaimOrEmpty t2.claims "accountId"
                    UserID := strClaimOrEmpty t2.claims "userId"
                    Exp := exp }
          | _ => .error (.simple "expiration not found in token")
    | _ => .error (.simple "customerId not found in token")

/-- The claim set written by CreateCustomerJWT. -/
def issuedClaims (customerID : String) (exp iat : Int) : Claims :=
  [("customerId", .str customerID), ("exp", .num exp), ("iat", .num iat)]

/-- JWTService.CreateCustomerJWT: resolve the tenant secret, compute the
expiration as now in IST plus the requested minutes, build the claim set
and sign it with HMAC-SHA256 under the tenant secret. -/
def CreateCustomerJWT (db : DBState) (now : GoTime) (customerID : String)
    (expirationMinutes : Int) : Except GoError TokenStr :=
  match GetSecretKeyForCustomer db customerID with
  | .error e =>
    .error (.wrapf ("failed to get secret key for customer " ++ customerID) e)
  | .ok secretKey =>
    let expirationTime := (toIST now).addSeconds (expirationMinutes * 60)
    let cs := issuedClaims customerID expirationTime.unix (toIST now).unix
    .ok (.tok { alg := .HS256, claims := cs, sig := .hmac .HS256 cs secretKey })

/-- Whether an Except carries a success. -/
def isSuccess {ε α : Type} : Except ε α → Bool
  | .ok _ => true
  | .error _ => false

/-- Rendering of a Go error to the string returned by its Error method,
used for the deny-response body. -/
def GoError.message : GoError → String
  | .tokenMalformed => "token is malformed"
  | .algUnavailable => "signing method (alg) is unavailable"
  | .unexpectedSigningMethod a => "unexpected signing method: " ++ a
  | .tokenSignatureInvalid => "token signature is invalid"
  | .tokenExpired => "token is expired"
  | .tokenNotValidYet => "token is not valid yet"
  | .invalidType k => k ++ " is invalid"
  | .joined a b => a.message ++ "\n" ++ b.message
  | .tokenInvalidClaims c => "token has invalid claims: " ++ c.message
  | .tokenUnverifiable c => "token is unverifiable: " ++ c.message
  | .sqlErrNoRows => "sql: no rows in result set"
  | .storeFailure m => m
  | .wrapf m c => m ++ ": " ++ c.message
  | .simple m => m

/-- The gateway decision rendered by verifyJWTHandler: a JSON deny with a
status code and an error reason, or a JSON allow with the identity
headers set before the body. -/
inductive GatewayResp where
  | deny (status : Nat) (reason : String)
  | allow (status : Nat) (headers : List (String × String))
  deriving DecidableEq, Repr

/-- Embeds strings.HasPrefix, over the character sequence of the
strings (the Go byte-level comparison coincides with it on the ASCII
literals compared here). -/
def goHasPre (s pre : String) : Bool :=
  List.isPrefixOf pre.data s.data

/-- Extraction of the token from the Authorization header: the seven
leading characters are removed only when the header is strictly longer
than seven characters and starts with exactly the string Bearer followed
by a space; otherwise the raw value is used. -/
def stripBearer (authHeader : String) : String :=
  if authHeader.data.length > 7 && decide (authHeader.data.take 7 = "Bearer ".data) then
    ⟨authHeader.data.drop 7⟩
  else authHeader

/-- The identity headers attached on allow, in the order the handler sets
them; X-Account-ID and X-User-ID only when non-empty. -/
def allowHeaders (p : JWTPayload) : List (String × String) :=
  [("X-Customer-ID", p.CustomerID)] ++
  (if p.AccountID ≠ "" then [("X-Account-ID", p.AccountID)] else []) ++
  (if p.UserID ≠ "" then [("X-User-ID", p.UserID)] else []) ++
  [("X-Token-Verified", "true")]

/-- Server.verifyJWTHandler, abstracted over the bound verifier method
vt (s.jwtService.VerifyToken): an empty Authorization header is denied
with status 401 before the verifier is consulted; otherwise the header is
stripped of the Bearer marker and handed to the verifier, whose failure
is denied with the stringified error and whose success is allowed with
the identity headers. -/
def verifyJWTHandler (vt : String → Except GoError JWTPayload)
    (authHeader : String) : GatewayResp :=
  if authHeader = "" then
    .deny 401 "Authorization header required"
  else
    match vt (stripBearer authHeader) with
    | .error e => .deny 401 e.message
    | .ok p => .allow 200 (allowHeaders p)

/-- The body of a POST /token request after JSON binding: customer_id is
required by the binding, minutes is an optional integer. -/
structure GenRequest where
  customerID : Option String
  minutes : Option Int
  deriving DecidableEq, Repr

/-- The response of the token-generation endpoint. -/
inductive TokenGenResp where
  | badRequest (msg : String)
  | serverError (e : GoError)
  | issued (token : TokenStr) (expiresInMinutes : Int)
  deriving DecidableEq, Repr

/-- Server.generateTokenHandler: the gin binding rejects a missing or
empty customer_id with status 400; minutes defaults to 60 when omitted
and is passed to CreateCustomerJWT unchecked; issuance failure is a 500,
success returns the token and the minutes used. -/
def generateTokenHandler (db : DBState) (now : GoTime) (req : GenRequest) : TokenGenResp :=
  match req.customerID with
  | none => .badRequest "Invalid request body"
  | some cid =>
    if cid = "" then .badRequest "Invalid request body"
    else
      let minutes := req.minutes.getD 60
      match CreateCustomerJWT db now cid minutes with
      | .error e => .serverError e
      | .ok token => .issued token minutes

/-- A row of the users table read by the companion backend. -/
structure User where
  Name : String
  Location : String
  Country : String
  deriving DecidableEq, Repr

/-- Result of getUserByEmail: sql.ErrNoRows is mapped to a nil user with
nil error, any other driver error is propagated. -/
inductive UserDBReply where
  | found (u : User)
  | missing
  | dbError
  deriving DecidableEq, Repr

/-- extractIDToken: the value of the first cookie whose name starts with
the string IdToken. -/
def extractIDToken (cookies : List (String × TokenStr)) : Except GoError TokenStr :=
  match cookies with
  | [] => .error (.simple "ID token not found in cookies")
  | (n, v) :: rest =>
    if goHasPre n "IdToken" then .ok v else extractIDToken rest

/-- parseIDToken: ParseUnverified followed by the claim-map assertion;
the claims are returned without any signature verification. -/
def parseIDToken (ts : TokenStr) : Except GoError Claims :=
  match ParseUnverified ts with
  | .error e => .error e
  | .ok t => .ok t.claims

/-- What a request to the companion backend observes from the handler:
an HTTP response, or a runtime panic escaping the handler. -/
inductive HandlerOutcome where
  | response (status : Nat) (body : String)
  | panicked (msg : String)
  deriving DecidableEq, Repr

/-- userHandler of the companion backend: extract the IdToken cookie,
parse it without verification, read the email claim with an unguarded
string type assertion (a non-string or absent email claim panics), then
look the user up by email and render the response. -/
def userHandler (udb : String → UserDBReply)
    (cookies : List (String × TokenStr)) : HandlerOutcome :=
  match extractIDToken cookies with
  | .error _ => .response 401 "Unauthorized: No ID token"
  | .ok ts =>
    match parseIDToken ts with
    | .error _ => .response 401 "Invalid JWT token"
    | .ok claims =>
      match findClaim claims "email" with
      | some (.str email) =>
        match udb email with
        | .dbError => .response 500 "Database error"
        | .missing => .response 200 ("User " ++ email ++ " not found. Please sign up.")
        | .found u =>
          .response 200 ("Welcome " ++ u.Name ++ "!\nEmail: " ++ email ++
            "\nLocation: " ++ u.Location ++ "\nCountry: " ++ u.Country)
      | _ => .panicked "interface conversion: interface is nil or not string"

/-! Helper lemmas inverting the parse pipeline. -/

theorem ParseUnverified_ok_inv {ts : TokenStr} {t : Token}
    (h : ParseUnverified ts = .ok t) :
    ts = .tok t ∧ t.alg.registered = true := by
  cases ts with
  | malformed r => simp [ParseUnverified] at h
  | tok t2 =>
    by_cases hreg : t2.alg.registered
    · simp only [ParseUnverified, hreg, if_pos] at h
      cases h
      exact ⟨rfl, hreg⟩
    · simp [ParseUnverified, hreg] at h

theorem parseWithKeyfunc_ok_inv {now : Int} {ts : TokenStr} {key : String} {t : Token}
    (h : parseWithKeyfunc now ts key = .ok t) :
    ts = .tok t ∧ t.alg.isHMAC = true ∧ t.sig = .hmac t.alg t.claims key ∧
      validateClaims now t.claims = none := by
  unfold parseWithKeyfunc at h
  cases hpu : ParseUnverified ts with
  | error e => rw [hpu] at h; simp at h
  | ok t2 =>
    rw [hpu] at h
    obtain ⟨hts, hreg⟩ := ParseUnverified_ok_inv hpu
    by_cases hh : t2.alg.isHMAC
    · by_cases hs : t2.sig = .hmac t2.alg t2.claims key
      · simp only [hh, hs, not_true, if_neg, ne_eq, not_false_iff] at h
        cases hval : validateClaims now t2.claims with
        | none =>
          rw [hval] at h
          cases h
          exact ⟨hts, hh, hs, hval⟩
        | some e => rw [hval] at h; simp at h
      · simp [hh, hs] at h
    · simp [hh] at h

/-- Claim C2: a token whose header declares a signing algorithm outside
the HMAC family, the "none" algorithm included, is rejected by
VerifyToken for every store state and every verification time; the
success branch is unreachable for such tokens. -/
theorem verifyToken_rejects_non_hmac (db : DBState) (now : GoTime) (t : Token)
    (halg : t.alg.isHMAC = false) :
    isSuccess (VerifyToken db now (.tok t)) = false := by
  cases hres : VerifyToken db now (.tok t) with
  | error e => rfl
  | ok p =>
    exfalso
    unfold VerifyToken at hres
    cases hpu : ParseUnverified (.tok t) with
    | error e => rw [hpu] at hres; simp at hres
    | ok t2 =>
      rw [hpu] at hres
      dsimp only at hres
      obtain ⟨hts, _⟩ := ParseUnverified_ok_inv hpu
      injection hts with heq2
      subst heq2
      cases hfc : findClaim t.claims "customerId" with
      | none => rw [hfc] at hres; simp at hres
      | some v =>
        rw [hfc] at hres
        cases v with
        | str cid =>
          dsimp only at hres
          cases hk : GetSecretKeyForCustomer db cid with
          | error e => rw [hk] at hres; simp at hres
          | ok key =>
            rw [hk] at hres
            dsimp only at hres
            cases hp : parseWithKeyfunc now.unix (.tok t) key with
            | error e => rw [hp] at hres; simp at hres
            | ok t3 =>
              obtain ⟨hts3, hh3, _, _⟩ := parseWithKeyfunc_ok_inv hp
              injection hts3 with heq3
              subst heq3
              rw [hh3] at halg
              exact Bool.true_eq_false.mp halg
        | num n => simp at hres
        | boolean b => simp at hres
        | null => simp at hres

/-- Witness for claim C2 at a concrete non-HMAC token. -/
theorem verifyToken_rejects_non_hmac_witness :
    isSuccess (VerifyToken (.healthy [⟨"A", "accA", "keyA", 60⟩]) ⟨1000, "UTC"⟩
      (.tok ⟨.noAlg, [("customerId", .str "A"), ("exp", .num 5000)], .blob ""⟩)) = false :=
  verifyToken_rejects_non_hmac _ _ _ (by decide)

/-- Claim C1: cross-tenant isolation.  When two tenants resolve to
distinct secret keys in the store, a token signed under the key of the
first tenant but claiming the customerId of the second never verifies:
the key is resolved for the claimed tenant and the HMAC check against
that key fails. -/
theorem cross_tenant_isolation (db : DBState) (now : GoTime) (alg : Alg)
    (claims : Claims) (aId bId kA kB : String)
    (hA : GetSecretKeyForCustomer db aId = .ok kA)
    (hB : GetSecretKeyForCustomer db bId = .ok kB)
    (hTen : aId ≠ bId) (hkeys : kA ≠ kB)
    (hclaims : findClaim claims "customerId" = some (.str bId)) :
    isSuccess (VerifyToken db now (.tok ⟨alg, claims, .hmac alg claims kA⟩)) = false := by
  cases hres : VerifyToken db now (.tok ⟨alg, claims, .hmac alg claims kA⟩) with
  | error e => rfl
  | ok p =>
    exfalso
    unfold VerifyToken at hres
    cases hpu : ParseUnverified (.tok ⟨alg, claims, .hmac alg claims kA⟩) with
    | error e => rw [hpu] at hres; simp at hres
    | ok t2 =>
      rw [hpu] at hres
      dsimp only at hres
      obtain ⟨hts, _⟩ := ParseUnverified_ok_inv hpu
      injection hts with heq2
      subst heq2
      dsimp only at hres
      rw [hclaims] at hres
      dsimp only at hres
      rw [hB] at hres
      dsimp only at hres
      cases hp : parseWithKeyfunc now.unix
          (.tok ⟨alg, claims, .hmac alg claims kA⟩) kB with
      | error e => rw [hp] at hres; simp at hres
      | ok t3 =>
        obtain ⟨hts3, _, hsig, _⟩ := parseWithKeyfunc_ok_inv hp
        injection hts3 with heq3
        rw [← heq3] at hsig
        dsimp only at hsig
        injection hsig with _ _ hkeq
        exact hkeys hkeq

/-- Witness for claim C1: a token for tenant B signed with the key of
tenant A is rejected against a concrete two-tenant store. -/
theorem cross_tenant_isolation_witness :
    isSuccess (VerifyToken (.healthy [⟨"A", "accA", "keyA", 60⟩, ⟨"B", "accB", "keyB", 30⟩])
      ⟨1000, "UTC"⟩
      (.tok ⟨.HS256, [("customerId", .str "B"), ("exp", .num 5000)],
        .hmac .HS256 [("customerId", .str "B"), ("exp", .num 5000)] "keyA"⟩)) = false :=
  cross_tenant_isolation _ _ _ _ "A" "B" "keyA" "keyB"
    rfl rfl (by decide) (by decide) rfl

/-- Claim C7: a request whose Authorization header is absent is denied
with status 401 and the exact reason string, for every verifier function,
so the decision is made without consulting the token verifier. -/
theorem gateway_missing_header (vt : String → Except GoError JWTPayload) :
    verifyJWTHandler vt "" = .deny 401 "Authorization header required" := rfl

/-- Claim C9: the cookie-based flow never consults the signature.  Two
structurally parseable tokens with identical header algorithm and claims
but arbitrary, possibly different, signature segments yield identical
parseIDToken results, and userHandler reaches the same outcome on a
request carrying either one, for every user store. -/
theorem cookie_flow_ignores_signature (alg : Alg) (claims : Claims) (s1 s2 : Sig) :
    parseIDToken (.tok ⟨alg, claims, s1⟩) = parseIDToken (.tok ⟨alg, claims, s2⟩) ∧
    ∀ (udb : String → UserDBReply) (cname : String)
      (rest : List (String × TokenStr)),
      userHandler udb ((cname, .tok ⟨alg, claims, s1⟩) :: rest) =
        userHandler udb ((cname, .tok ⟨alg, claims, s2⟩) :: rest) := by
  have hparse : parseIDToken (.tok ⟨alg, claims, s1⟩) =
      parseIDToken (.tok ⟨alg, claims, s2⟩) := by
    unfold parseIDToken ParseUnverified
    dsimp only
    by_cases hreg : alg.registered <;> simp [hreg]
  refine ⟨hparse, fun udb cname rest => ?_⟩
  unfold userHandler extractIDToken
  by_cases hc : goHasPre cname "IdToken"
  · simp only [hc, if_true]
    rw [hparse]
  · simp only [hc, Bool.false_eq_true, if_false]

/-- Claim C10: a request with an IdToken cookie holding a structurally
valid token whose claims do not contain an email claim of string type
makes userHandler panic through the unguarded type assertion instead of
returning an error response. -/
theorem userHandler_panics_without_email (udb : String → UserDBReply)
    (cname : String) (t : Token) (rest : List (String × TokenStr))
    (hc : goHasPre cname "IdToken" = true)
    (hreg : t.alg.registered = true)
    (hmail : ∀ s, findClaim t.claims "email" ≠ some (.str s)) :
    userHandler udb ((cname, .tok t) :: rest) =
      .panicked "interface conversion: interface is nil or not string" := by
  have hp : parseIDToken (.tok t) = .ok t.claims := by
    unfold parseIDToken ParseUnverified
    simp [hreg]
  unfold userHandler extractIDToken
  simp only [hc, if_true, hp]

/-- Witness for claim C10: a parseable token whose email claim is a
number panics against a concrete user store. -/
theorem userHandler_panics_without_email_witness :
    userHandler (fun _ => .missing)
      [("IdToken0", .tok ⟨.RS256, [("email", .num 7)], .blob "sig"⟩)] =
      .panicked "interface conversion: interface is nil or not string" :=
  userHandler_panics_without_email (fun _ => .missing) "IdToken0"
    ⟨.RS256, [("email", .num 7)], .blob "sig"⟩ []
    (by decide) (by decide) (fun s => by simp [findClaim])

/-- Claim C6: at key-resolution time, an unknown tenant and an
unavailable store produce distinct error values.  The unknown-tenant
error wraps sql ErrNoRows and no store failure, the unavailable-store
error wraps the driver failure and no ErrNoRows, so a caller can
distinguish the two cases from the returned error by unwrapping, as
errors.Is does. -/
theorem store_error_distinction (cs : List Customer) (msg : String)
    (now : GoTime) (t : Token) (cid : String)
    (hreg : t.alg.registered = true)
    (hcid : findClaim t.claims "customerId" = some (.str cid))
    (hmiss : findCustomer cs cid = none) :
    (VerifyToken (.healthy cs) now (.tok t) =
        .error (.wrapf ("failed to get secret key for customer " ++ cid) .sqlErrNoRows) ∧
      GoError.chainHas GoError.isNoRows
        (.wrapf ("failed to get secret key for customer " ++ cid) .sqlErrNoRows) = true ∧
      GoError.chainHas GoError.isStoreFailure
        (.wrapf ("failed to get secret key for customer " ++ cid) .sqlErrNoRows) = false) ∧
    (VerifyToken (.failing msg) now (.tok t) =
        .error (.wrapf ("failed to get secret key for customer " ++ cid) (.storeFailure msg)) ∧
      GoError.chainHas GoError.isStoreFailure
        (.wrapf ("failed to get secret key for customer " ++ cid) (.storeFailure msg)) = true ∧
      GoError.chainHas GoError.isNoRows
        (.wrapf ("failed to get secret key for customer " ++ cid) (.storeFailure msg)) = false) := by
  have hpu : ParseUnverified (.tok t) = .ok t := by
    unfold ParseUnverified
    simp [hreg]
  refine ⟨⟨?_, rfl, rfl⟩, ⟨?_, rfl, rfl⟩⟩
  · unfold VerifyToken
    rw [hpu]
    dsimp only
    rw [hcid]
    dsimp only
    unfold GetSecretKeyForCustomer
    dsimp only
    rw [hmiss]
  · unfold VerifyToken
    rw [hpu]
    dsimp only
    rw [hcid]
    rfl

/-- Witness for claim C6 at a concrete token and store. -/
theorem store_error_distinction_witness :
    (VerifyToken (.healthy [⟨"A", "accA", "keyA", 60⟩]) ⟨1000, "UTC"⟩
        (.tok ⟨.HS256, [("customerId", .str "Z"), ("exp", .num 5000)], .blob "x"⟩) =
      .error (.wrapf ("failed to get secret key for customer " ++ "Z") .sqlErrNoRows)) ∧
    (VerifyToken (.failing "connection refused") ⟨1000, "UTC"⟩
        (.tok ⟨.HS256, [("customerId", .str "Z"), ("exp", .num 5000)], .blob "x"⟩) =
      .error (.wrapf ("failed to get secret key for customer " ++ "Z")
        (.storeFailure "connection refused"))) :=
  ⟨((store_error_distinction [⟨"A", "accA", "keyA", 60⟩] "connection refused" ⟨1000, "UTC"⟩
      ⟨.HS256, [("customerId", .str "Z"), ("exp", .num 5000)], .blob "x"⟩ "Z"
      (by decide) rfl rfl).1).1,
   ((store_error_distinction [⟨"A", "accA", "keyA", 60⟩] "connection refused" ⟨1000, "UTC"⟩
      ⟨.HS256, [("customerId", .str "Z"), ("exp", .num 5000)], .blob "x"⟩ "Z"
      (by decide) rfl rfl).2).1⟩

/-- Counterexample for claim C5: with a tenant whose stored default ttl
is 30 minutes, a request omitting minutes is issued with the fixed
default of 60 minutes rather than the stored 30, and a request supplying
the non-positive value -5 is issued a token instead of failing with an
InvalidArgument error. -/
theorem ttl_claim_counterexample :
    (generateTokenHandler (.healthy [⟨"t", "acc", "K", 30⟩]) ⟨1000, "UTC"⟩
        ⟨some "t", none⟩ =
      .issued (.tok ⟨.HS256, issuedClaims "t" 4600 1000,
        .hmac .HS256 (issuedClaims "t" 4600 1000) "K"⟩) 60) ∧
    (60 : Int) ≠ 30 ∧ (4600 : Int) ≠ 1000 + 30 * 60 ∧
    (generateTokenHandler (.healthy [⟨"t", "acc", "K", 30⟩]) ⟨1000, "UTC"⟩
        ⟨some "t", some (-5)⟩ =
      .issued (.tok ⟨.HS256, issuedClaims "t" 700 1000,
        .hmac .HS256 (issuedClaims "t" 700 1000) "K"⟩) (-5)) :=
  ⟨rfl, by decide, by decide, rfl⟩

/-- Claim C5 as amended: when minutes is omitted the handler uses the
fixed default of 60 minutes, ignoring the stored default ttl of the
tenant, and any supplied integer minutes, zero and negative values
included, is used as-is; issuance never fails with an invalid-argument
error on the ttl. -/
theorem generateTokenHandler_ttl_behavior (db : DBState) (now : GoTime)
    (cid key : String)
    (hcid : cid ≠ "")
    (hkey : GetSecretKeyForCustomer db cid = .ok key) :
    (generateTokenHandler db now ⟨some cid, none⟩ =
      .issued (.tok ⟨.HS256, issuedClaims cid (now.unix + 60 * 60) now.unix,
        .hmac .HS256 (issuedClaims cid (now.unix + 60 * 60) now.unix) key⟩) 60) ∧
    ∀ m : Int, generateTokenHandler db now ⟨some cid, some m⟩ =
      .issued (.tok ⟨.HS256, issuedClaims cid (now.unix + m * 60) now.unix,
        .hmac .HS256 (issuedClaims cid (now.unix + m * 60) now.unix) key⟩) m := by
  constructor
  · unfold generateTokenHandler
    dsimp only
    rw [if_neg hcid]
    unfold CreateCustomerJWT
    rw [hkey]
    rfl
  · intro m
    unfold generateTokenHandler
    dsimp only
    rw [if_neg hcid]
    unfold CreateCustomerJWT
    rw [hkey]
    rfl

/-- Witness for the amended claim C5 at a concrete tenant. -/
theorem generateTokenHandler_ttl_behavior_witness :
    generateTokenHandler (.healthy [⟨"t", "acc", "K", 30⟩]) ⟨1000, "UTC"⟩
        ⟨some "t", some 2⟩ =
      .issued (.tok ⟨.HS256, issuedClaims "t" (1000 + 2 * 60) 1000,
        .hmac .HS256 (issuedClaims "t" (1000 + 2 * 60) 1000) "K"⟩) 2 :=
  (generateTokenHandler_ttl_behavior (.healthy [⟨"t", "acc", "K", 30⟩]) ⟨1000, "UTC"⟩
    "t" "K" (by decide) rfl).2 2

/-- Claim C8: issuance writes exp equal to the issuance instant plus
sixty times the requested minutes and iat equal to the issuance instant,
both in unix seconds, and the IST conversion applied before taking Unix
does not change the absolute instant. -/
theorem exp_iat_absolute_instants (db : DBState) (now : GoTime)
    (cid key : String) (m : Int)
    (hkey : GetSecretKeyForCustomer db cid = .ok key) :
    (∀ u : GoTime, (toIST u).unix = u.unix) ∧
    CreateCustomerJWT db now cid m =
      .ok (.tok ⟨.HS256, issuedClaims cid (now.unix + m * 60) now.unix,
        .hmac .HS256 (issuedClaims cid (now.unix + m * 60) now.unix) key⟩) := by
  refine ⟨fun u => rfl, ?_⟩
  unfold CreateCustomerJWT
  rw [hkey]
  rfl

/-- Witness for claim C8 at a concrete tenant and instant. -/
theorem exp_iat_absolute_instants_witness :
    CreateCustomerJWT (.healthy [⟨"t", "acc", "K", 30⟩]) ⟨1000, "IST"⟩ "t" 3 =
      .ok (.tok ⟨.HS256, issuedClaims "t" (1000 + 3 * 60) 1000,
        .hmac .HS256 (issuedClaims "t" (1000 + 3 * 60) 1000) "K"⟩) :=
  (exp_iat_absolute_instants (.healthy [⟨"t", "acc", "K", 30⟩]) ⟨1000, "IST"⟩
    "t" "K" 3 rfl).2

theorem Alg.isHMAC_registered {a : Alg} (h : a.isHMAC = true) :
    a.registered = true := by
  cases a <;> simp [Alg.isHMAC] at h <;> rfl

/-- Computation of VerifyToken for a token that passes structural parse,
key resolution and signature verification: what remains is exactly the
v5 claims validation followed by the manual expiration check. -/
theorem VerifyToken_after_signature (db : DBState) (tv : GoTime) (alg : Alg)
    (claims : Claims) (cid key : String)
    (hcid : findClaim claims "customerId" = some (.str cid))
    (hkey : GetSecretKeyForCustomer db cid = .ok key)
    (halg : alg.isHMAC = true) :
    VerifyToken db tv (.tok ⟨alg, claims, .hmac alg claims key⟩) =
      match validateClaims tv.unix claims with
      | some err => .error (.wrapf "token verification failed" (.tokenInvalidClaims err))
      | none =>
        match findClaim claims "exp" with
        | some (.num e) =>
          if e < tv.unix then .error (.simple "token expired")
          else .ok ⟨cid, strClaimOrEmpty claims "accountId",
                    strClaimOrEmpty claims "userId", e⟩
        | _ => .error (.simple "expiration not found in token") := by
  have hreg : alg.registered = true := Alg.isHMAC_registered halg
  have hpu : ParseUnverified (.tok ⟨alg, claims, .hmac alg claims key⟩) =
      .ok ⟨alg, claims, .hmac alg claims key⟩ := by
    unfold ParseUnverified
    simp [hreg]
  have hpk : parseWithKeyfunc tv.unix (.tok ⟨alg, claims, .hmac alg claims key⟩) key =
      match validateClaims tv.unix claims with
      | none => .ok ⟨alg, claims, .hmac alg claims key⟩
      | some e => .error (.tokenInvalidClaims e) := by
    unfold parseWithKeyfunc
    rw [hpu]
    dsimp only
    rw [if_neg (by simp [halg])]
    rw [if_neg (by simp)]
  unfold VerifyToken
  rw [hpu]
  dsimp only
  rw [hcid]
  dsimp only
  rw [hkey]
  dsimp only
  rw [hpk]
  cases hval : validateClaims tv.unix claims with
  | some err => rfl
  | none => rfl

/-- Claim C3 as amended: for a token that passes structural parsing, key
resolution and signature verification and carries no nbf claim,
verification fails with the missing-expiration error when exp is absent;
fails with a parse-stage invalid-claims error, not the missing-expiration
error, when exp is present but non-numeric; fails with a parse-stage
expired error when exp is numeric, nonzero, and not strictly in the
future; and succeeds with the payload carrying exp when exp is strictly
in the future.  In particular exp one second in the past fails as
expired and exp one second in the future succeeds. -/
theorem verifyToken_expiration_cases (db : DBState) (tv : GoTime) (alg : Alg)
    (claims : Claims) (cid key : String)
    (hcid : findClaim claims "customerId" = some (.str cid))
    (hkey : GetSecretKeyForCustomer db cid = .ok key)
    (halg : alg.isHMAC = true)
    (hnbf : findClaim claims "nbf" = none) :
    (findClaim claims "exp" = none →
      VerifyToken db tv (.tok ⟨alg, claims, .hmac alg claims key⟩) =
        .error (.simple "expiration not found in token")) ∧
    (∀ v : JSONVal, findClaim claims "exp" = some v → (∀ n : Int, v ≠ .num n) →
      VerifyToken db tv (.tok ⟨alg, claims, .hmac alg claims key⟩) =
        .error (.wrapf "token verification failed"
          (.tokenInvalidClaims (.invalidType "exp")))) ∧
    (∀ e : Int, findClaim claims "exp" = some (.num e) → e ≠ 0 → e ≤ tv.unix →
      VerifyToken db tv (.tok ⟨alg, claims, .hmac alg claims key⟩) =
        .error (.wrapf "token verification failed"
          (.tokenInvalidClaims .tokenExpired))) ∧
    (∀ e : Int, findClaim claims "exp" = some (.num e) → tv.unix < e →
      VerifyToken db tv (.tok ⟨alg, claims, .hmac alg claims key⟩) =
        .ok ⟨cid, strClaimOrEmpty claims "accountId",
             strClaimOrEmpty claims "userId", e⟩) := by
  have hmain := VerifyToken_after_signature db tv alg claims cid key hcid hkey halg
  refine ⟨?_, ?_, ?_, ?_⟩
  · intro hexp
    rw [hmain]
    unfold validateClaims parseNumericDate
    rw [hexp, hnbf]
  · intro v hexp hnn
    rw [hmain]
    unfold validateClaims parseNumericDate
    rw [hexp, hnbf]
    cases v with
    | num n => exact absurd rfl (hnn n)
    | str s => rfl
    | boolean b => rfl
    | null => rfl
  · intro e hexp he0 hle
    rw [hmain]
    unfold validateClaims parseNumericDate
    rw [hexp, hnbf]
    have hnl : ¬ tv.unix < e := by omega
    simp only [if_neg he0, if_neg hnl]
  · intro e hexp hlt
    rw [hmain]
    unfold validateClaims parseNumericDate
    rw [hexp, hnbf]
    have hne : ¬ e < tv.unix := by omega
    by_cases he0 : e = 0
    · simp only [if_pos he0, if_neg hne]
    · simp only [if_neg he0, if_pos hlt, if_neg hne]

/-- Witness for the amended claim C3: the expiration boundary at a
concrete store and clock, exp one second in the past rejected as expired
and exp one second in the future accepted. -/
theorem verifyToken_expiration_cases_witness :
    (VerifyToken (.healthy [⟨"acme", "acc", "K", 60⟩]) ⟨1000, "UTC"⟩
        (.tok ⟨.HS256, [("customerId", .str "acme"), ("exp", .num 999)],
          .hmac .HS256 [("customerId", .str "acme"), ("exp", .num 999)] "K"⟩) =
      .error (.wrapf "token verification failed"
        (.tokenInvalidClaims .tokenExpired))) ∧
    (VerifyToken (.healthy [⟨"acme", "acc", "K", 60⟩]) ⟨1000, "UTC"⟩
        (.tok ⟨.HS256, [("customerId", .str "acme"), ("exp", .num 1001)],
          .hmac .HS256 [("customerId", .str "acme"), ("exp", .num 1001)] "K"⟩) =
      .ok ⟨"acme", "", "", 1001⟩) :=
  ⟨((verifyToken_expiration_cases (.healthy [⟨"acme", "acc", "K", 60⟩]) ⟨1000, "UTC"⟩
      .HS256 [("customerId", .str "acme"), ("exp", .num 999)] "acme" "K"
      (by decide) rfl (by decide) (by decide)).2.2.1) 999 (by decide) (by decide) (by decide),
   ((verifyToken_expiration_cases (.healthy [⟨"acme", "acc", "K", 60⟩]) ⟨1000, "UTC"⟩
      .HS256 [("customerId", .str "acme"), ("exp", .num 1001)] "acme" "K"
      (by decide) rfl (by decide) (by decide)).2.2.2) 1001 (by decide) (by decide)⟩

/-- Counterexample for claim C3 as stated.  First, a token whose exp
claim is a string passes structural parse, key resolution and signature
verification but is rejected with the parse-stage invalid-claims error,
in whose unwrap chain the missing-expiration error the claim promises
appears nowhere.  Second, a token whose exp is numeric and strictly in
the future is nevertheless rejected, because its nbf claim lies in the
future, where the claim promises success. -/
theorem expiration_claim_counterexample :
    (VerifyToken (.healthy [⟨"acme", "acc", "K", 60⟩]) ⟨1000, "UTC"⟩
        (.tok ⟨.HS256, [("customerId", .str "acme"), ("exp", .str "later")],
          .hmac .HS256 [("customerId", .str "acme"), ("exp", .str "later")] "K"⟩) =
      .error (.wrapf "token verification failed"
        (.tokenInvalidClaims (.invalidType "exp")))) ∧
    GoError.chainHas GoError.isMissingExpiration
      (.wrapf "token verification failed"
        (.tokenInvalidClaims (.invalidType "exp"))) = false ∧
    GoError.chainHas GoError.isExpiredKind
      (.wrapf "token verification failed"
        (.tokenInvalidClaims (.invalidType "exp"))) = false ∧
    isSuccess (VerifyToken (.healthy [⟨"acme", "acc", "K", 60⟩]) ⟨1000, "UTC"⟩
        (.tok ⟨.HS256,
          [("customerId", .str "acme"), ("exp", .num 1100), ("nbf", .num 1050)],
          .hmac .HS256
            [("customerId", .str "acme"), ("exp", .num 1100), ("nbf", .num 1050)]
            "K"⟩)) = false ∧
    (1000 : Int) < 1100 := by
  refine ⟨rfl, by decide, by decide, rfl, by decide⟩

/-- Claim C4: the round trip.  For a tenant resolvable in the store and
a positive ttl, verifying the issued token at any instant strictly
before expiry succeeds, the payload carries the issued tenant id, and
its expiration lies within the window from issuance time to issuance
time plus the ttl. -/
theorem issue_verify_round_trip (db : DBState) (tIssue tVerify : GoTime)
    (cid key : String) (m : Int)
    (hkey : GetSecretKeyForCustomer db cid = .ok key)
    (hm : 0 < m)
    (hv : tVerify.unix < tIssue.unix + m * 60) :
    ∃ ts : TokenStr,
      CreateCustomerJWT db tIssue cid m = .ok ts ∧
      ∃ p : JWTPayload, VerifyToken db tVerify ts = .ok p ∧
        p.CustomerID = cid ∧
        tIssue.unix ≤ p.Exp ∧ p.Exp ≤ tIssue.unix + m * 60 := by
  refine ⟨.tok ⟨.HS256, issuedClaims cid (tIssue.unix + m * 60) tIssue.unix,
    .hmac .HS256 (issuedClaims cid (tIssue.unix + m * 60) tIssue.unix) key⟩, ?_, ?_⟩
  · unfold CreateCustomerJWT
    rw [hkey]
    rfl
  · refine ⟨⟨cid, "", "", tIssue.unix + m * 60⟩, ?_, rfl, ?_, ?_⟩
    · have hfind : findClaim (issuedClaims cid (tIssue.unix + m * 60) tIssue.unix)
          "customerId" = some (.str cid) := by
        simp [issuedClaims, findClaim]
      have hexp : findClaim (issuedClaims cid (tIssue.unix + m * 60) tIssue.unix)
          "exp" = some (.num (tIssue.unix + m * 60)) := by
        simp [issuedClaims, findClaim]
      have hnbf : findClaim (issuedClaims cid (tIssue.unix + m * 60) tIssue.unix)
          "nbf" = none := by
        simp [issuedClaims, findClaim]
      have ha : strClaimOrEmpty (issuedClaims cid (tIssue.unix + m * 60) tIssue.unix)
          "accountId" = "" := by
        simp [strClaimOrEmpty, issuedClaims, findClaim]
      have hu : strClaimOrEmpty (issuedClaims cid (tIssue.unix + m * 60) tIssue.unix)
          "userId" = "" := by
        simp [strClaimOrEmpty, issuedClaims, findClaim]
      rw [VerifyToken_after_signature db tVerify .HS256
        (issuedClaims cid (tIssue.unix + m * 60) tIssue.unix) cid key hfind hkey rfl]
      unfold validateClaims parseNumericDate
      rw [hexp, hnbf]
      have hne : ¬ tIssue.unix + m * 60 < tVerify.unix := by omega
      by_cases he0 : tIssue.unix + m * 60 = 0
      · simp only [if_pos he0, if_neg hne, ha, hu]
      · simp only [if_neg he0, if_pos hv, if_neg hne, ha, hu]
    · show tIssue.unix ≤ tIssue.unix + m * 60
      omega
    · show tIssue.unix + m * 60 ≤ tIssue.unix + m * 60
      omega

/-- Witness for claim C4 at a concrete tenant, ttl and pair of clocks. -/
theorem issue_verify_round_trip_witness :
    ∃ ts : TokenStr,
      CreateCustomerJWT (.healthy [⟨"acme", "acc", "K", 60⟩]) ⟨900, "UTC"⟩ "acme" 5 =
        .ok ts ∧
      ∃ p : JWTPayload,
        VerifyToken (.healthy [⟨"acme", "acc", "K", 60⟩]) ⟨1000, "UTC"⟩ ts = .ok p ∧
        p.CustomerID = "acme" ∧ (900 : Int) ≤ p.Exp ∧ p.Exp ≤ 900 + 5 * 60 :=
  issue_verify_round_trip (.healthy [⟨"acme", "acc", "K", 60⟩]) ⟨900, "UTC"⟩
    ⟨1000, "UTC"⟩ "acme" "K" 5 rfl (by decide) (by decide)

end JwtSpec
